import Mathlib

/-!
Verification development for the LevelsQ repository (a 2D "universe hopper"
canvas demo).  The JavaScript sources are shallowly embedded here:

* the carousel / level-selector state machine (`CState`, `nonHomeIndices`,
  `usedNonHomeCount`, `pickUnusedNonHomeLevelIndex`,
  `initCarouselWithHomeOrFallback`, `carouselMoveRight`, `carouselMoveLeft`);
* the transition state machine and player reset (`triggerEdge`,
  `finishTransition`, `setAnim`);
* the zoom-and-pan-follow renderer (`getHeroNormalizedX`, `panFollow`,
  `drawZoomPanFollow`);
* the animation timers (`loopPlayerAnimStep` for the hero, `layerLoop` /
  `drawOptionalLayerAdvance` for optional layers);
* the level loader (`loadOptionalLayer`, `loadLevels`).

JavaScript numbers are modelled as rationals (`ℚ`); the DOM image handles are
modelled by their source strings, with an oracle `loadable : String → Bool`
standing for "this URL loads successfully"; `Math.random` draws are modelled
by an explicit choice argument `c : Nat` reduced modulo the pool size, so a
theorem quantified over `c` covers every possible random outcome.
-/

/-! ## Carousel / level selector (src/unnamed/part_000, lines 53-205) -/

/-- The mutable fields of the JS `state` object that the carousel touches:
`levelIndex`, `carousel` (a list of level indices), `carouselPos` (cursor into
`carousel`) and `homeIndex` (`Option Nat` models the JS `-1`-or-index). -/
structure CState where
  levelIndex : Nat
  carousel : List Nat
  carouselPos : Nat
  homeIndex : Option Nat
  deriving Repr, DecidableEq

/-- `isHomeIndex(i)`: `state.homeIndex !== -1 && i === state.homeIndex`. -/
def isHomeIndex (home : Option Nat) (i : Nat) : Bool :=
  match home with
  | none => false
  | some h => h == i

/-- `nonHomeIndices()`: all level indices `0 ≤ i < levelData.length` that are
not the home index.  `n` is `levelData.length`. -/
def nonHomeIndices (n : Nat) (home : Option Nat) : List Nat :=
  (List.range n).filter (fun i => !(isHomeIndex home i))

/-- `usedNonHomeCount()`: number of non-home entries of the carousel. -/
def usedNonHomeCount (home : Option Nat) (carousel : List Nat) : Nat :=
  (carousel.filter (fun i => !(isHomeIndex home i))).length

/-- `pickUnusedNonHomeLevelIndex()`: draw an unused non-home index from the
pool; the random draw `randInt(0, pool.length - 1)` is modelled by
`c % pool.length`.  The `pool.length === 0` fallback returns `nonHome[0] ?? 0`. -/
def pickUnusedNonHomeLevelIndex (n : Nat) (home : Option Nat)
    (carousel : List Nat) (c : Nat) : Nat :=
  let pool := (nonHomeIndices n home).filter (fun i => !(carousel.contains i))
  if hp : pool.length = 0 then
    (nonHomeIndices n home).headD 0
  else
    pool.get ⟨c % pool.length, Nat.mod_lt c (Nat.pos_of_ne_zero hp)⟩

/-- `initCarouselWithHomeOrFallback()`: seed with the home index when present,
otherwise with `randInt(0, levelData.length - 1)` (modelled as `c % n`). -/
def initCarouselWithHomeOrFallback (n c : Nat) (s : CState) : CState :=
  match s.homeIndex with
  | some h => { s with carousel := [h], carouselPos := 0, levelIndex := h }
  | none =>
    let startIdx := c % n
    { s with carousel := [startIdx], carouselPos := 0, levelIndex := startIdx }

/-- `carouselMoveRight()`: returns the selected level index together with the
updated state (the JS mutates `state` in place and returns the index).
The JS guard `state.carouselPos < state.carousel.length - 1` is written as
`carouselPos + 1 < carousel.length`, which is the same comparison over the
integers and avoids truncated `Nat` subtraction. -/
def carouselMoveRight (n c : Nat) (s : CState) : Nat × CState :=
  if n ≤ 1 then (s.levelIndex, s)
  else
    let nonHome := nonHomeIndices n s.homeIndex
    if nonHome.length ≤ usedNonHomeCount s.homeIndex s.carousel then
      -- all used: rotate forward circularly
      let pos := (s.carouselPos + 1) % s.carousel.length
      (s.carousel.getD pos 0, { s with carouselPos := pos })
    else if s.carouselPos + 1 < s.carousel.length then
      -- step forward into existing history
      (s.carousel.getD (s.carouselPos + 1) 0, { s with carouselPos := s.carouselPos + 1 })
    else
      -- at the end: append a new unused non-home index
      let nextIdx := pickUnusedNonHomeLevelIndex n s.homeIndex s.carousel c
      (nextIdx, { s with carousel := s.carousel ++ [nextIdx], carouselPos := s.carousel.length })

/-- `carouselMoveLeft()`: mirror of `carouselMoveRight`.  The JS rotation
`(pos - 1 + len) % len` is written `(pos + len - 1) % len`, identical over the
integers for `pos ≥ 0`, `len ≥ 1`. -/
def carouselMoveLeft (n c : Nat) (s : CState) : Nat × CState :=
  if n ≤ 1 then (s.levelIndex, s)
  else
    let nonHome := nonHomeIndices n s.homeIndex
    if nonHome.length ≤ usedNonHomeCount s.homeIndex s.carousel then
      -- all used: rotate backward circularly
      let pos := (s.carouselPos + s.carousel.length - 1) % s.carousel.length
      (s.carousel.getD pos 0, { s with carouselPos := pos })
    else if 0 < s.carouselPos then
      -- step backward into existing history
      (s.carousel.getD (s.carouselPos - 1) 0, { s with carouselPos := s.carouselPos - 1 })
    else
      -- at the beginning: prepend a new unused non-home index
      let prevIdx := pickUnusedNonHomeLevelIndex n s.homeIndex s.carousel c
      (prevIdx, { s with carousel := prevIdx :: s.carousel, carouselPos := 0 })

/-- Iterated rightward movement: `rightIter n cs k s` performs `k` calls of
`carouselMoveRight`, the `j`-th call using random choice `cs j`. -/
def rightIter (n : Nat) (cs : Nat → Nat) : Nat → CState → CState
  | 0, s => s
  | Nat.succ j, s => (carouselMoveRight n (cs j) (rightIter n cs j s)).2

/-! ## Carousel claim C8: single level pool -/

/-- Claim C8: if exactly one level exists in the loaded pool, both carousel
movement operations are no-ops: they return the current level index and leave
the carousel sequence and cursor unchanged. -/
theorem carousel_single_level_noop (c : Nat) (s : CState) (n : Nat) (hn : n = 1) :
    carouselMoveRight n c s = (s.levelIndex, s) ∧
    carouselMoveLeft n c s = (s.levelIndex, s) := by
  subst hn
  constructor <;> simp [carouselMoveRight, carouselMoveLeft]

/-- Witness for C8 at a concrete state. -/
theorem carousel_single_level_noop_witness :
    carouselMoveRight 1 5 ⟨0, [0], 0, none⟩ = (0, ⟨0, [0], 0, none⟩) ∧
    carouselMoveLeft 1 5 ⟨0, [0], 0, none⟩ = (0, ⟨0, [0], 0, none⟩) :=
  carousel_single_level_noop 5 ⟨0, [0], 0, none⟩ 1 rfl

/-! ## Player, transition state machine (src/unnamed/part_000, lines 74-84,
207-212, 560-582) -/

/-- The two screen edges (`"left"` / `"right"` in the JS). -/
inductive Edge where
  | left
  | right
  deriving Repr, DecidableEq

/-- The two animation modes (`"idle"` / `"walk"` in the JS). -/
inductive AnimMode where
  | idle
  | walk
  deriving Repr, DecidableEq

/-- The JS `player` object (image handles aside). -/
structure Player where
  x : ℚ
  speed : ℚ
  visible : Bool
  facing : Int
  anim : AnimMode
  frameIndex : Nat
  frameTimer : ℚ
  renderW : ℚ
  renderH : ℚ
  deriving Repr, DecidableEq

/-- The transition fields of the JS `state` object. -/
structure TState where
  transitioning : Bool
  transitionUntil : ℚ
  lastEdge : Option Edge
  deriving Repr, DecidableEq

/-- `setAnim(next)`: switching animation modes resets frame index and timer;
setting the current mode again is an early-returned no-op. -/
def setAnim (next : AnimMode) (p : Player) : Player :=
  if p.anim = next then p
  else { p with anim := next, frameIndex := 0, frameTimer := 0 }

/-- `triggerEdge(edge)`: arm the transition unless one is already running.
`now` stands for `performance.now()`. -/
def triggerEdge (now : ℚ) (edge : Edge) (t : TState) (p : Player) :
    TState × Player :=
  if t.transitioning then (t, p)
  else
    ({ transitioning := true, transitionUntil := now + 60, lastEdge := some edge },
     { p with visible := false })

/-- `finishTransition()` (part_000 variant): advance the level via the
carousel in the direction of the triggering edge, reposition the player just
inside the opposite edge facing inward, reset the animation to idle, reveal
the player, and leave the transitioning mode.  `W` is the viewport width,
`n` the level count and `c` the random choice fed to the carousel. -/
def finishTransition (n c : Nat) (W : ℚ) (cs : CState) (t : TState)
    (p : Player) : CState × TState × Player :=
  let mv := match t.lastEdge with
    | some Edge.left => carouselMoveLeft n c cs
    | _ => carouselMoveRight n c cs
  let cs1 := { mv.2 with levelIndex := mv.1 }
  let p1 := match t.lastEdge with
    | some Edge.left => { p with x := W - p.renderW - 2, facing := -1 }
    | _ => { p with x := 2, facing := 1 }
  let p2 := setAnim AnimMode.idle p1
  (cs1, { t with transitioning := false }, { p2 with visible := true })

/-! ## Transition claims C5 and C6 -/

/-- Claim C5: calling the edge-trigger operation while the transition state
machine is already transitioning is a no-op: `transitionUntil`, `lastEdge`,
`transitioning` and the player's visibility are all unchanged, for either
edge. -/
theorem triggerEdge_idempotent_guard (now : ℚ) (edge : Edge) (t : TState)
    (p : Player) (h : t.transitioning = true) :
    triggerEdge now edge t p = (t, p) := by
  simp [triggerEdge, h]

/-- Witness for C5 at a concrete transitioning state. -/
theorem triggerEdge_idempotent_guard_witness :
    triggerEdge 1000 Edge.left ⟨true, 500, some Edge.right⟩
      ⟨10, 90, false, 1, AnimMode.idle, 0, 0, 26, 56⟩ =
    (⟨true, 500, some Edge.right⟩,
     ⟨10, 90, false, 1, AnimMode.idle, 0, 0, 26, 56⟩) :=
  triggerEdge_idempotent_guard 1000 Edge.left ⟨true, 500, some Edge.right⟩
    ⟨10, 90, false, 1, AnimMode.idle, 0, 0, 26, 56⟩ rfl

/-- Claim C6: after every completed transition the player sits 2 logical
pixels inside the entry edge opposite the triggering edge, facing away from
that entry edge (left trigger ⇒ `x = W − renderW − 2`, facing `-1`; right
trigger ⇒ `x = 2`, facing `1`), the animation mode is idle, and the player is
visible again. -/
theorem finishTransition_places_player (n c : Nat) (W : ℚ) (cs : CState)
    (t : TState) (p : Player) :
    (finishTransition n c W cs t p).2.2.anim = AnimMode.idle ∧
    (finishTransition n c W cs t p).2.2.visible = true ∧
    (t.lastEdge = some Edge.left →
      (finishTransition n c W cs t p).2.2.x = W - p.renderW - 2 ∧
      (finishTransition n c W cs t p).2.2.facing = -1) ∧
    (t.lastEdge = some Edge.right →
      (finishTransition n c W cs t p).2.2.x = 2 ∧
      (finishTransition n c W cs t p).2.2.facing = 1) := by
  rcases t with ⟨tr, tu, le⟩
  rcases le with _ | e
  · refine ⟨?_, ?_, ?_, ?_⟩ <;>
      simp [finishTransition, setAnim] <;> split <;> simp_all
  · cases e <;>
      · refine ⟨?_, ?_, ?_, ?_⟩ <;>
          simp [finishTransition, setAnim] <;> split <;> simp_all

/-- Witness for C6 at a concrete left-triggered transition. -/
theorem finishTransition_places_player_witness :
    (finishTransition 3 0 800 ⟨0, [0, 1], 1, some 0⟩ ⟨true, 500, some Edge.left⟩
      ⟨0, 90, false, 1, AnimMode.walk, 3, 0, 26, 56⟩).2.2.anim = AnimMode.idle ∧
    (finishTransition 3 0 800 ⟨0, [0, 1], 1, some 0⟩ ⟨true, 500, some Edge.left⟩
      ⟨0, 90, false, 1, AnimMode.walk, 3, 0, 26, 56⟩).2.2.visible = true ∧
    ((⟨true, 500, some Edge.left⟩ : TState).lastEdge = some Edge.left →
      (finishTransition 3 0 800 ⟨0, [0, 1], 1, some 0⟩ ⟨true, 500, some Edge.left⟩
        ⟨0, 90, false, 1, AnimMode.walk, 3, 0, 26, 56⟩).2.2.x =
          800 - (⟨0, 90, false, 1, AnimMode.walk, 3, 0, 26, 56⟩ : Player).renderW - 2 ∧
      (finishTransition 3 0 800 ⟨0, [0, 1], 1, some 0⟩ ⟨true, 500, some Edge.left⟩
        ⟨0, 90, false, 1, AnimMode.walk, 3, 0, 26, 56⟩).2.2.facing = -1) ∧
    ((⟨true, 500, some Edge.left⟩ : TState).lastEdge = some Edge.right →
      (finishTransition 3 0 800 ⟨0, [0, 1], 1, some 0⟩ ⟨true, 500, some Edge.left⟩
        ⟨0, 90, false, 1, AnimMode.walk, 3, 0, 26, 56⟩).2.2.x = 2 ∧
      (finishTransition 3 0 800 ⟨0, [0, 1], 1, some 0⟩ ⟨true, 500, some Edge.left⟩
        ⟨0, 90, false, 1, AnimMode.walk, 3, 0, 26, 56⟩).2.2.facing = 1) :=
  finishTransition_places_player 3 0 800 ⟨0, [0, 1], 1, some 0⟩
    ⟨true, 500, some Edge.left⟩ ⟨0, 90, false, 1, AnimMode.walk, 3, 0, 26, 56⟩

/-! ## Zoom-and-pan-follow rendering (src/unnamed/part_000, lines 41-48,
99-101, 215-242) -/

/-- `clamp(v, min, max) = Math.max(min, Math.min(max, v))`. -/
def clamp (v lo hi : ℚ) : ℚ := max lo (min hi v)

/-- `MAX_PAN_PX = 55`. -/
def MAX_PAN_PX : ℚ := 55

/-- `BG_ZOOM = 1.05`. -/
def BG_ZOOM : ℚ := 1.05

/-- `FG_ZOOM = 1.02`. -/
def FG_ZOOM : ℚ := 1.02

/-- `BG_FOLLOW = 0.025`. -/
def BG_FOLLOW : ℚ := 0.025

/-- `FG_FOLLOW = 0.55`. -/
def FG_FOLLOW : ℚ := 0.55

/-- `getHeroNormalizedX()`: the hero position normalized to `[-1, +1]` across
its walkable range `[0, W - renderW]`. -/
def getHeroNormalizedX (W playerX renderW : ℚ) : ℚ :=
  let range := max 1 (W - renderW)
  let t := clamp (playerX / range) 0 1
  t * 2 - 1

/-- The pan displacement computed inside `drawZoomPanFollow`:
`clamp(heroN * maxPan * clamp(followStrength, 0, 1), -maxPan, maxPan)` with
`maxPan = min((W*zoom - W)/2, MAX_PAN_PX)`. -/
def panFollow (W zoom followStrength playerX renderW : ℚ) : ℚ :=
  let drawW := W * zoom
  let maxFromZoom := (drawW - W) / 2
  let maxPan := min maxFromZoom MAX_PAN_PX
  let heroN := getHeroNormalizedX W playerX renderW
  clamp (heroN * maxPan * clamp followStrength 0 1) (-maxPan) maxPan

/-- The rectangle passed to `ctx.drawImage` by `drawZoomPanFollow`. -/
structure DrawRect where
  x : ℚ
  y : ℚ
  w : ℚ
  h : ℚ
  deriving Repr, DecidableEq

/-- `drawZoomPanFollow(img, zoom, followStrength)`: the zoomed image is
centred and then shifted by the pan displacement. -/
def drawZoomPanFollow (W H zoom followStrength playerX renderW : ℚ) :
    DrawRect :=
  let drawW := W * zoom
  let drawH := H * zoom
  ⟨-(drawW - W) / 2 + panFollow W zoom followStrength playerX renderW,
   -(drawH - H) / 2, drawW, drawH⟩

/-! ## Pan-bound claim C3 -/

/-- Counterexample to C3 as stated: the claim quantifies over *every* zoom
factor, but for a zoom below 1 the pan bound fails.  At `W = 800`,
`zoom = 1/2`, follow strength `0`, player at `x = 400` with `renderW = 26`,
the computed pan is `200`, while `min((zoom·W − W)/2, MAX_PAN_PX) = -200`. -/
theorem panFollow_bound_fails_for_small_zoom :
    ¬ (|panFollow 800 (1/2) 0 400 26| ≤
        min ((800 * (1/2 : ℚ) - 800) / 2) MAX_PAN_PX) := by
  norm_num [panFollow, getHeroNormalizedX, clamp, MAX_PAN_PX]

/-- Claim C3 (amended: the zoom factor must be at least 1, as both zoom
factors of the code are, and the viewport width nonnegative): for every
follow strength and player position, the pan displacement has magnitude at
most `min((zoom·W − W)/2, MAX_PAN_PX)`, and consequently the drawn image
never exposes its edge: the draw rectangle starts at or left of `x = 0` and
ends at or right of `x = W`. -/
theorem panFollow_bound (W H zoom followStrength playerX renderW : ℚ)
    (hW : 0 ≤ W) (hzoom : 1 ≤ zoom) :
    |panFollow W zoom followStrength playerX renderW| ≤
      min ((W * zoom - W) / 2) MAX_PAN_PX ∧
    (drawZoomPanFollow W H zoom followStrength playerX renderW).x ≤ 0 ∧
    W ≤ (drawZoomPanFollow W H zoom followStrength playerX renderW).x +
        (drawZoomPanFollow W H zoom followStrength playerX renderW).w := by
  have hmargin : 0 ≤ (W * zoom - W) / 2 := by nlinarith
  have hmaxPan : 0 ≤ min ((W * zoom - W) / 2) MAX_PAN_PX := by
    have : (0:ℚ) ≤ MAX_PAN_PX := by norm_num [MAX_PAN_PX]
    exact le_min hmargin this
  have hpan : |panFollow W zoom followStrength playerX renderW| ≤
      min ((W * zoom - W) / 2) MAX_PAN_PX := by
    rw [abs_le]
    unfold panFollow clamp
    constructor
    · exact le_max_left _ _
    · exact max_le (neg_le_self hmaxPan) (min_le_left _ _)
  refine ⟨hpan, ?_, ?_⟩
  · have h1 : panFollow W zoom followStrength playerX renderW ≤ (W * zoom - W) / 2 :=
      le_trans (le_of_abs_le hpan) (min_le_left _ _)
    simp only [drawZoomPanFollow]
    linarith
  · have h2 : -((W * zoom - W) / 2) ≤ panFollow W zoom followStrength playerX renderW := by
      have h3 := (abs_le.mp hpan).1
      have h4 : -((W * zoom - W) / 2) ≤ -(min ((W * zoom - W) / 2) MAX_PAN_PX) := by
        simp only [neg_le_neg_iff]
        exact min_le_left _ _
      linarith
    simp only [drawZoomPanFollow]
    linarith

/-- Witness for the amended C3 at the code's background zoom and follow
values. -/
theorem panFollow_bound_witness :
    |panFollow 800 BG_ZOOM BG_FOLLOW 100 26| ≤
      min ((800 * BG_ZOOM - 800) / 2) MAX_PAN_PX ∧
    (drawZoomPanFollow 800 600 BG_ZOOM BG_FOLLOW 100 26).x ≤ 0 ∧
    (800:ℚ) ≤ (drawZoomPanFollow 800 600 BG_ZOOM BG_FOLLOW 100 26).x +
        (drawZoomPanFollow 800 600 BG_ZOOM BG_FOLLOW 100 26).w :=
  panFollow_bound 800 600 BG_ZOOM BG_FOLLOW 100 26 (by norm_num)
    (by norm_num [BG_ZOOM])

/-! ## Animation timers (src/unnamed/part_000, lines 51, 474-502, 609-615) -/

/-- `DEFAULT_LAYER_FPS = 12`. -/
def DEFAULT_LAYER_FPS : ℚ := 12

/-- The player-animation fragment of `loop` (lines 609-615): accumulate `dt`
into `frameTimer`, then a single `if` step: when at least one frame interval
`1/fps` has accumulated, subtract one interval and advance the frame index by
one modulo `currentFrames().length || 1`.  Returns the new
`(frameTimer, frameIndex)`. -/
def loopPlayerAnimStep (fps : ℚ) (framesLen : Nat) (frameTimer : ℚ)
    (frameIndex : Nat) (dt : ℚ) : ℚ × Nat :=
  let t := frameTimer + dt
  if 1 / fps ≤ t then
    let len := if framesLen = 0 then 1 else framesLen
    (t - 1 / fps, (frameIndex + 1) % len)
  else (t, frameIndex)

/-- The `while (layerAsset.timer >= spf)` loop of `drawOptionalLayerAsset`:
subtract one frame interval and advance the frame index until less than one
interval remains.  Terminates because `spf > 0`. -/
def layerLoop (spf : ℚ) (hspf : 0 < spf) (timer : ℚ) (frameIndex len : Nat) :
    ℚ × Nat :=
  if h : spf ≤ timer then
    layerLoop spf hspf (timer - spf) ((frameIndex + 1) % len) len
  else (timer, frameIndex)
  termination_by (⌊timer / spf⌋).toNat
  decreasing_by
    have h1 : (1:ℚ) ≤ timer / spf := (one_le_div hspf).mpr h
    have h2 : ⌊(timer - spf) / spf⌋ = ⌊timer / spf⌋ - 1 := by
      rw [sub_div, div_self (ne_of_gt hspf)]
      exact Int.floor_sub_one _
    have h3 : 1 ≤ ⌊timer / spf⌋ := by
      exact_mod_cast Int.le_floor.mpr (by exact_mod_cast h1)
    omega

/-- The frame-advance fragment of `drawOptionalLayerAsset` (lines 485-490):
`spf = 1 / Math.max(1, fps)`, accumulate `dt` into the timer, then catch up
whole frames with the `while` loop.  Returns the new `(timer, frameIndex)`. -/
def drawOptionalLayerAdvance (fps : ℚ) (len : Nat) (timer : ℚ)
    (frameIndex : Nat) (dt : ℚ) : ℚ × Nat :=
  layerLoop (1 / max 1 fps)
    (div_pos one_pos (lt_of_lt_of_le one_pos (le_max_left 1 fps)))
    (timer + dt) frameIndex len

/-- Running the `while` loop on a timer of exactly `k` intervals plus a
remainder `r < spf` performs exactly `k` steps. -/
theorem layerLoop_steps (spf : ℚ) (hspf : 0 < spf) :
    ∀ (k : Nat) (r : ℚ) (frameIndex len : Nat), 0 ≤ r → r < spf →
      layerLoop spf hspf (k * spf + r) frameIndex len =
        (r, if k = 0 then frameIndex else (frameIndex + k) % len) := by
  intro k
  induction k with
  | zero =>
    intro r frameIndex len hr0 hrs
    rw [layerLoop]
    simp only [Nat.cast_zero, zero_mul, zero_add]
    rw [dif_neg (by linarith)]
    simp
  | succ j ih =>
    intro r frameIndex len hr0 hrs
    rw [layerLoop]
    have hle : spf ≤ (↑(j + 1) : ℚ) * spf + r := by
      push_cast
      nlinarith [mul_nonneg (Nat.cast_nonneg (α := ℚ) j) hspf.le]
    rw [dif_pos hle]
    have harg : (↑(j + 1) : ℚ) * spf + r - spf = (↑j : ℚ) * spf + r := by
      push_cast
      ring
    rw [harg, ih r ((frameIndex + 1) % len) len hr0 hrs]
    rcases Nat.eq_zero_or_pos j with hj | hj
    · subst hj
      simp
    · have hj1 : j ≠ 0 := Nat.pos_iff_ne_zero.mp hj
      simp only [hj1, if_false, Nat.succ_ne_zero]
      rw [Nat.mod_add_mod]
      have hargs : frameIndex + 1 + j = frameIndex + (j + 1) := by omega
      rw [hargs]

/-! ## Animation catch-up claim C2 -/

/-- Counterexample to C2 as stated: the player's frame advance in `loop` is a
single `if`, not the catch-up `while` used for layers.  With the idle frame
rate `fps = 6`, a 4-frame mode, zeroed timer and an elapsed time of ten frame
intervals delivered in one tick, the frame index advances by 1, not by
`10 % 4 = 2`. -/
theorem player_anim_catchup_fails :
    (loopPlayerAnimStep 6 4 0 0 (10 * (1 / 6))).2 ≠ (0 + 10) % 4 := by
  norm_num [loopPlayerAnimStep]

/-- Claim C2 (amended: the `while`-based layer animation advances by exactly
10 frames modulo the frame count on a tick of ten frame intervals, but the
player's frame advance is an `if`-based single step, so the same tick
advances the player's frame index by exactly 1, never 10): for any frame
rate `fps ≥ 1`, frame count, and starting frame index, with zeroed timers
and one tick of elapsed time `10 * (1/fps)`. -/
theorem anim_catchup (fps : ℚ) (len frameIndex : Nat) (hfps : 1 ≤ fps) :
    (loopPlayerAnimStep fps len 0 frameIndex (10 * (1 / fps))).2 =
      (frameIndex + 1) % (if len = 0 then 1 else len) ∧
    (drawOptionalLayerAdvance fps len 0 frameIndex (10 * (1 / fps))).2 =
      (frameIndex + 10) % len := by
  have hfps0 : 0 < fps := lt_of_lt_of_le one_pos hfps
  have hspf0 : 0 < 1 / fps := div_pos one_pos hfps0
  constructor
  · simp only [loopPlayerAnimStep, zero_add]
    rw [if_pos (by linarith)]
  · have hmax : max 1 fps = fps := max_eq_right hfps
    simp only [drawOptionalLayerAdvance, hmax, zero_add]
    have harg : 10 * (1 / fps) = (↑(10:Nat) : ℚ) * (1 / fps) + 0 := by
      push_cast
      ring
    rw [harg, layerLoop_steps (1 / fps) hspf0 10 0 frameIndex len le_rfl hspf0]
    simp

/-- Witness for the amended C2 at the idle frame rate and a 4-frame mode. -/
theorem anim_catchup_witness :
    (loopPlayerAnimStep 6 4 0 0 (10 * (1 / 6))).2 =
      (0 + 1) % (if (4:Nat) = 0 then 1 else 4) ∧
    (drawOptionalLayerAdvance 6 4 0 0 (10 * (1 / 6))).2 = (0 + 10) % 4 :=
  anim_catchup 6 4 0 (by norm_num)

/-! ## Carousel claim C4: right then left along existing history -/

/-- Claim C4: from any carousel state whose cursor sits at a non-boundary
position of the recorded sequence (for a pool of at least the history's
size), moving right and then immediately left returns the index the cursor
started at and leaves the recorded sequence — in particular its length —
unchanged, whatever random choices the two moves are offered. -/
theorem carousel_right_left_inverse (n c1 c2 : Nat) (s : CState)
    (h1 : 0 < s.carouselPos) (h2 : s.carouselPos + 1 < s.carousel.length)
    (h3 : s.carousel.length ≤ n) :
    (carouselMoveLeft n c2 (carouselMoveRight n c1 s).2).1 =
      s.carousel.getD s.carouselPos 0 ∧
    (carouselMoveLeft n c2 (carouselMoveRight n c1 s).2).2.carousel =
      s.carousel ∧
    (carouselMoveLeft n c2 (carouselMoveRight n c1 s).2).2.carousel.length =
      s.carousel.length := by
  have hn1 : ¬ (n ≤ 1) := by omega
  by_cases hAll : (nonHomeIndices n s.homeIndex).length ≤
      usedNonHomeCount s.homeIndex s.carousel
  · -- exhausted pool: both moves rotate
    have e1 : carouselMoveRight n c1 s =
        (s.carousel.getD (s.carouselPos + 1) 0,
         { s with carouselPos := s.carouselPos + 1 }) := by
      simp only [carouselMoveRight, if_neg hn1, if_pos hAll]
      rw [Nat.mod_eq_of_lt h2]
    have e2 : carouselMoveLeft n c2 { s with carouselPos := s.carouselPos + 1 } =
        (s.carousel.getD s.carouselPos 0,
         { s with carouselPos := s.carouselPos }) := by
      simp only [carouselMoveLeft, if_neg hn1, if_pos hAll]
      have harg : s.carouselPos + 1 + s.carousel.length - 1 =
          s.carouselPos + s.carousel.length := by omega
      rw [harg, Nat.add_mod_right, Nat.mod_eq_of_lt (by omega)]
    rw [e1, e2]
    simp
  · -- unexhausted pool: step forward into history, then step back
    have e1 : carouselMoveRight n c1 s =
        (s.carousel.getD (s.carouselPos + 1) 0,
         { s with carouselPos := s.carouselPos + 1 }) := by
      simp only [carouselMoveRight, if_neg hn1, if_neg hAll, if_pos h2]
    have e2 : carouselMoveLeft n c2 { s with carouselPos := s.carouselPos + 1 } =
        (s.carousel.getD s.carouselPos 0,
         { s with carouselPos := s.carouselPos }) := by
      simp only [carouselMoveLeft, if_neg hn1, if_neg hAll,
        if_pos (Nat.succ_pos s.carouselPos)]
      simp
    rw [e1, e2]
    simp

/-- Witness for C4 at a concrete mid-history state. -/
theorem carousel_right_left_inverse_witness :
    (carouselMoveLeft 4 1 (carouselMoveRight 4 9 ⟨3, [3, 1, 2], 1, some 3⟩).2).1 =
      ([3, 1, 2] : List Nat).getD 1 0 ∧
    (carouselMoveLeft 4 1 (carouselMoveRight 4 9 ⟨3, [3, 1, 2], 1, some 3⟩).2).2.carousel =
      [3, 1, 2] ∧
    (carouselMoveLeft 4 1 (carouselMoveRight 4 9 ⟨3, [3, 1, 2], 1, some 3⟩).2).2.carousel.length =
      ([3, 1, 2] : List Nat).length :=
  carousel_right_left_inverse 4 9 1 ⟨3, [3, 1, 2], 1, some 3⟩ (by decide)
    (by decide) (by decide)

/-! ## Level loading (src/unnamed/part_000, lines 245-437).  Image handles
are modelled by their source URLs; the oracle `loadable : String → Bool`
states which URLs load successfully. -/

/-- An optional-layer spec object from `data/levels.json`.  Absent JSON keys
are `none`; `count` models `Number(layerSpec.count || 0)`. -/
structure LayerSpec where
  type : Option String
  src : Option String
  folder : Option String
  count : Nat
  fps : Option ℚ
  align : Option String
  deriving Repr, DecidableEq

/-- A resolved optional-layer asset: either a static image or an animation
player seeded with `timer = 0`, `frameIndex = 0`. -/
inductive LayerAsset where
  | image (src : String) (align : String)
  | frames (srcs : List String) (fps : ℚ) (align : String)
  deriving Repr, DecidableEq

/-- A level descriptor from `data/levels.json`. -/
structure LevelDesc where
  id : String
  background : Option String
  foreground : Option String
  layer1 : Option LayerSpec
  layer2 : Option LayerSpec
  layer3 : Option LayerSpec
  layer4 : Option LayerSpec
  isHome : Bool
  deriving Repr, DecidableEq

/-- `String(i).padStart(2, "0")`. -/
def pad2 (i : Nat) : String :=
  if i < 10 then "0" ++ toString i else toString i

/-- The frame file name convention `folder/frame_NN.png`. -/
def frameSrc (folder : String) (i : Nat) : String :=
  folder ++ "/frame_" ++ pad2 i ++ ".png"

/-- `loadFrameSequenceCounted(folder, count)`: succeeds (with the full frame
list) iff every one of the `count` frame files loads. -/
def loadFrameSequenceCounted (loadable : String → Bool) (folder : String)
    (count : Nat) : Option (List String) :=
  let srcs := (List.range count).map (fun i => frameSrc folder (i + 1))
  if srcs.all loadable then some srcs else none

/-- `loadOptionalLayer(levelId, layerSpec, layerName)`: every failure path
(missing spec, missing `src`/`folder`, zero count, unsupported type, load
failure) is absorbed into `none` — this function never throws.  `align` is
sanitised to `"bg"` or `"screen"`. -/
def loadOptionalLayer (loadable : String → Bool) (layerSpec : Option LayerSpec) :
    Option LayerAsset :=
  match layerSpec with
  | none => none
  | some spec =>
    let ty := (spec.type.getD "frames").toLower
    let align := (spec.align.getD "screen").toLower
    let safeAlign := if align = "bg" then "bg" else "screen"
    if ty = "image" then
      match spec.src with
      | none => none
      | some src => if loadable src then some (LayerAsset.image src safeAlign) else none
    else if ty = "frames" then
      if spec.count = 0 then none
      else
        match spec.folder with
        | none => none
        | some folder =>
          let fps0 := spec.fps.getD 0
          let fps := if fps0 = 0 then DEFAULT_LAYER_FPS else fps0
          match loadFrameSequenceCounted loadable folder spec.count with
          | some srcs => some (LayerAsset.frames srcs fps safeAlign)
          | none => none
    else none

/-- The per-level asset bundle stored in `levelAssets`. -/
structure LevelBundle where
  bgImg : String
  fgImg : Option String
  l1 : Option LayerAsset
  l2 : Option LayerAsset
  l3 : Option LayerAsset
  l4 : Option LayerAsset
  deriving Repr, DecidableEq

/-- One iteration of the `for (const lvl of json.levels)` loop: `none` means
the level was excluded (missing or unloadable background); otherwise the
level is kept together with its asset bundle.  Foreground and layer failures
are absorbed and never exclude the level. -/
def loadLevelEntry (loadable : String → Bool) (lvl : LevelDesc) :
    Option (LevelDesc × String × LevelBundle) :=
  match lvl.background with
  | none => none
  | some bgSrc =>
    if loadable bgSrc then
      let fgImg := match lvl.foreground with
        | none => none
        | some fg => if loadable fg then some fg else none
      some (lvl, lvl.id,
        { bgImg := bgSrc, fgImg := fgImg,
          l1 := loadOptionalLayer loadable lvl.layer1,
          l2 := loadOptionalLayer loadable lvl.layer2,
          l3 := loadOptionalLayer loadable lvl.layer3,
          l4 := loadOptionalLayer loadable lvl.layer4 })
    else none

/-- `loadLevels()` up to the point where `levelData` is set: `fetchOk` models
`res.ok`; `doc = none` models a missing/malformed `levels` key, `some []` an
empty list.  Returns the usable levels with their asset bundles, or the
thrown error message. -/
def loadLevels (fetchOk : Bool) (doc : Option (List LevelDesc))
    (loadable : String → Bool) :
    Except String (List LevelDesc × List (String × LevelBundle)) :=
  if !fetchOk then Except.error "Failed to fetch data/levels.json"
  else
    match doc with
    | none =>
      Except.error "data/levels.json must contain levels with at least 1 level"
    | some levels =>
      if levels.isEmpty then
        Except.error "data/levels.json must contain levels with at least 1 level"
      else
        let loaded := levels.filterMap (loadLevelEntry loadable)
        if loaded.isEmpty then
          Except.error "No valid levels loaded. Check backgrounds."
        else
          Except.ok (loaded.map (fun e => e.1), loaded.map (fun e => e.2))

/-- `state.homeIndex = levelData.findIndex((l) => l && l.isHome === true)`,
with `none` for `-1`. -/
def detectHome (levelData : List LevelDesc) : Option Nat :=
  levelData.findIdx? (fun l => l.isHome)

/-- The tail of `loadLevels()`: detect the home level in the usable pool and
seed the carousel. -/
def seedAfterLoad (levelData : List LevelDesc) (c : Nat) (s : CState) : CState :=
  initCarouselWithHomeOrFallback levelData.length c
    { s with homeIndex := detectHome levelData }

/-- A level passes background validation iff it declares a background source
and that source loads. -/
def bgValid (loadable : String → Bool) (lvl : LevelDesc) : Bool :=
  match lvl.background with
  | none => false
  | some bgSrc => loadable bgSrc

/-- A level is excluded by the loading loop exactly when it fails background
validation; foreground and optional-layer failures never exclude it. -/
theorem loadLevelEntry_eq_none_iff (loadable : String → Bool) (lvl : LevelDesc) :
    loadLevelEntry loadable lvl = none ↔ bgValid loadable lvl = false := by
  unfold loadLevelEntry bgValid
  cases lvl.background with
  | none => simp
  | some bgSrc =>
    by_cases hb : loadable bgSrc
    · simp [hb]
    · simp [hb]

/-! ## Loading claim C9 -/

/-- Claim C9: `loadLevels` produces a playable state iff the config document
was fetched, contains a (nonempty) level list, and at least one level passes
background validation — equivalently, it fails fatally iff the config is
missing/malformed/empty or zero levels have a loadable background.  Since the
right-hand side mentions neither foregrounds nor optional layers nor other
levels' backgrounds, their load failures never make loading fail. -/
theorem loadLevels_fatal_iff (fetchOk : Bool) (doc : Option (List LevelDesc))
    (loadable : String → Bool) :
    (loadLevels fetchOk doc loadable).isOk = true ↔
      fetchOk = true ∧ ∃ levels, doc = some levels ∧
        ∃ lvl ∈ levels, bgValid loadable lvl = true := by
  cases fetchOk with
  | false => simp [loadLevels, Except.isOk, Except.toBool]
  | true =>
    cases doc with
    | none => simp [loadLevels, Except.isOk, Except.toBool]
    | some levels =>
      rcases levels with _ | ⟨a, as⟩
      · simp [loadLevels, Except.isOk, Except.toBool]
      · have hne : (a :: as).isEmpty = false := by simp
        by_cases hl : ((a :: as).filterMap (loadLevelEntry loadable)).isEmpty
        · have hall : ∀ lvl ∈ a :: as, bgValid loadable lvl = false :=
            fun lvl hm => (loadLevelEntry_eq_none_iff loadable lvl).mp
              (List.forall_none_of_filterMap_eq_nil (List.isEmpty_iff.mp hl) lvl hm)
          have hLHS : (loadLevels true (some (a :: as)) loadable).isOk = false := by
            simp [loadLevels, hl, Except.isOk, Except.toBool]
          rw [hLHS]
          simp only [Bool.false_eq_true, false_iff]
          rintro ⟨-, ls2, hls2, lvl, hm, hv⟩
          have hls3 : ls2 = a :: as := by
            injection hls2.symm
          subst hls3
          rw [hall lvl hm] at hv
          exact absurd hv (by simp)
        · have hex : ∃ lvl ∈ a :: as, bgValid loadable lvl = true := by
            by_contra hno
            push_neg at hno
            have : ((a :: as).filterMap (loadLevelEntry loadable)) = [] := by
              rw [List.filterMap_eq_nil_iff]
              intro x hx
              rw [loadLevelEntry_eq_none_iff]
              have := hno x hx
              simpa using this
            exact hl (by simp [this])
          have hLHS : (loadLevels true (some (a :: as)) loadable).isOk = true := by
            simp [loadLevels, hl, Except.isOk, Except.toBool]
          rw [hLHS]
          constructor
          · intro _
            exact ⟨rfl, a :: as, rfl, hex⟩
          · intro _
            rfl

/-! ## Startup seeding claim C7 -/

/-- Claim C7: at startup, when some loaded level is flagged `isHome:true`,
the carousel is seeded with exactly the (first) home index, the cursor is at
it and the current level index equals it; when no level is flagged, the
carousel is seeded with exactly one index drawn from the pool
`0 ≤ i < levelData.length`. -/
theorem startup_seeding (levelData : List LevelDesc) (c : Nat) (s : CState) :
    (∀ h, detectHome levelData = some h →
      ∃ hlt : h < levelData.length,
        (levelData.get ⟨h, hlt⟩).isHome = true ∧
        (seedAfterLoad levelData c s).carousel = [h] ∧
        (seedAfterLoad levelData c s).carouselPos = 0 ∧
        (seedAfterLoad levelData c s).levelIndex = h) ∧
    (detectHome levelData = none → levelData ≠ [] →
      ∃ i, i < levelData.length ∧
        (seedAfterLoad levelData c s).carousel = [i] ∧
        (seedAfterLoad levelData c s).carouselPos = 0 ∧
        (seedAfterLoad levelData c s).levelIndex = i) := by
  constructor
  · intro h hdh
    have hget := List.findIdx?_eq_some_iff_getElem.mp hdh
    obtain ⟨hlt, hp, -⟩ := hget
    refine ⟨hlt, by simpa using hp, ?_, ?_, ?_⟩
    all_goals
      simp [seedAfterLoad, initCarouselWithHomeOrFallback, hdh]
  · intro hdh hne
    refine ⟨c % levelData.length, Nat.mod_lt _ (List.length_pos.mpr hne), ?_, ?_, ?_⟩
    all_goals
      simp [seedAfterLoad, initCarouselWithHomeOrFallback, hdh]

/-- A two-level pool whose second level is flagged home, for the C7 witness. -/
def demoLevels : List LevelDesc :=
  [⟨"forest", some "assets/forest_bg.png", none, none, none, none, none, false⟩,
   ⟨"home", some "assets/home_bg.png", none, none, none, none, none, true⟩]

/-- Witness for C7 on `demoLevels` (home detected at index 1) and, for the
no-home branch, on the hypothesis-free instantiation. -/
theorem startup_seeding_witness :
    (∀ h, detectHome demoLevels = some h →
      ∃ hlt : h < demoLevels.length,
        (demoLevels.get ⟨h, hlt⟩).isHome = true ∧
        (seedAfterLoad demoLevels 0 ⟨0, [], 0, none⟩).carousel = [h] ∧
        (seedAfterLoad demoLevels 0 ⟨0, [], 0, none⟩).carouselPos = 0 ∧
        (seedAfterLoad demoLevels 0 ⟨0, [], 0, none⟩).levelIndex = h) ∧
    (detectHome demoLevels = none → demoLevels ≠ [] →
      ∃ i, i < demoLevels.length ∧
        (seedAfterLoad demoLevels 0 ⟨0, [], 0, none⟩).carousel = [i] ∧
        (seedAfterLoad demoLevels 0 ⟨0, [], 0, none⟩).carouselPos = 0 ∧
        (seedAfterLoad demoLevels 0 ⟨0, [], 0, none⟩).levelIndex = i) :=
  startup_seeding demoLevels 0 ⟨0, [], 0, none⟩

/-! ## Carousel counting lemmas, shared by claims C1 and C10 -/

/-- `nonHomeIndices` never repeats an index. -/
theorem nonHomeIndices_nodup (n : Nat) (home : Option Nat) :
    (nonHomeIndices n home).Nodup :=
  (List.nodup_range n).filter _

/-- Membership in `nonHomeIndices`. -/
theorem mem_nonHomeIndices (n : Nat) (home : Option Nat) (i : Nat) :
    i ∈ nonHomeIndices n home ↔ i < n ∧ isHomeIndex home i = false := by
  unfold nonHomeIndices
  rw [List.mem_filter, List.mem_range]
  simp

/-- Splitting a list by a Boolean predicate preserves total length. -/
theorem filter_not_split (p : Nat → Bool) (l : List Nat) :
    (l.filter p).length + (l.filter (fun a => !(p a))).length = l.length := by
  induction l with
  | nil => rfl
  | cons a t ih =>
    by_cases hpa : p a = true
    · simp [List.filter_cons, hpa]
      omega
    · rw [Bool.not_eq_true] at hpa
      simp [List.filter_cons, hpa]
      omega

/-- With no home level every index is a non-home index. -/
theorem nonHomeIndices_length_none (n : Nat) :
    (nonHomeIndices n none).length = n := by
  unfold nonHomeIndices
  simp [isHomeIndex]

/-- The home entries of the index range are exactly `[hh]`. -/
theorem filter_isHome_range (n hh : Nat) (hlt : hh < n) :
    (List.range n).filter (fun a => isHomeIndex (some hh) a) = [hh] := by
  induction n with
  | zero => omega
  | succ m ih =>
    rw [List.range_succ, List.filter_append]
    by_cases hm : hh < m
    · rw [ih hm]
      have hne : isHomeIndex (some hh) m = false := by
        simp [isHomeIndex]
        omega
      simp [hne]
    · have hhm : hh = m := by omega
      subst hhm
      have h1 : (List.range hh).filter (fun a => isHomeIndex (some hh) a) = [] := by
        rw [List.filter_eq_nil_iff]
        intro a ha
        rw [List.mem_range] at ha
        simp [isHomeIndex]
        omega
      rw [h1]
      simp [isHomeIndex]

/-- With an in-range home index there are `n - 1` non-home indices. -/
theorem nonHomeIndices_length_some (n hh : Nat) (hlt : hh < n) :
    (nonHomeIndices n (some hh)).length = n - 1 := by
  have hsplit := filter_not_split (fun a => isHomeIndex (some hh) a) (List.range n)
  rw [filter_isHome_range n hh hlt, List.length_range] at hsplit
  unfold nonHomeIndices
  simp only [List.length_cons, List.length_nil] at hsplit
  omega

/-- A duplicate-free list whose members all equal `v` has at most one
element. -/
theorem length_le_one_of_nodup_of_all_eq (l : List Nat) (v : Nat)
    (hd : l.Nodup) (ha : ∀ x ∈ l, x = v) : l.length ≤ 1 := by
  cases l with
  | nil => simp
  | cons a t =>
    cases t with
    | nil => simp
    | cons b t2 =>
      exfalso
      have hab : a ∉ b :: t2 := (List.nodup_cons.mp hd).1
      have ha1 : a = v := ha a (by simp)
      have hb1 : b = v := ha b (by simp)
      exact hab (by simp [ha1, hb1])

/-- If not every non-home index has been used, the unused pool is
nonempty (given a duplicate-free history). -/
theorem pool_ne_nil (n : Nat) (home : Option Nat) (carousel : List Nat)
    (hd : carousel.Nodup)
    (hu : usedNonHomeCount home carousel < (nonHomeIndices n home).length) :
    (nonHomeIndices n home).filter (fun i => !(carousel.contains i)) ≠ [] := by
  intro h0
  rw [List.filter_eq_nil_iff] at h0
  have hsub : (nonHomeIndices n home).toFinset ⊆
      (carousel.filter (fun i => !(isHomeIndex home i))).toFinset := by
    intro x hx
    rw [List.mem_toFinset] at hx ⊢
    rw [List.mem_filter]
    constructor
    · have hc := h0 x hx
      simp at hc
      exact hc
    · have := (mem_nonHomeIndices n home x).mp hx
      simp [this.2]
  have h1 := List.toFinset_card_of_nodup (nonHomeIndices_nodup n home)
  have h2 := List.toFinset_card_of_nodup
    (hd.filter (fun i => !(isHomeIndex home i)))
  have h3 := Finset.card_le_card hsub
  unfold usedNonHomeCount at hu
  omega

/-- When the pool is unexhausted, a duplicate-free history (with an in-range
home index, if any) is strictly shorter than the level pool. -/
theorem carousel_length_lt_of_unused (n : Nat) (home : Option Nat)
    (carousel : List Nat) (hd : carousel.Nodup)
    (hhome : ∀ h, home = some h → h < n)
    (hu : usedNonHomeCount home carousel < (nonHomeIndices n home).length) :
    carousel.length < n := by
  have hsplit := filter_not_split (fun i => isHomeIndex home i) carousel
  unfold usedNonHomeCount at hu
  cases home with
  | none =>
    have h0 : (carousel.filter (fun i => isHomeIndex none i)).length = 0 := by
      simp [isHomeIndex]
    rw [nonHomeIndices_length_none] at hu
    omega
  | some hh =>
    have hle1 : (carousel.filter (fun i => isHomeIndex (some hh) i)).length ≤ 1 := by
      apply length_le_one_of_nodup_of_all_eq _ hh (hd.filter _)
      intro x hx
      rw [List.mem_filter] at hx
      have hx2 := hx.2
      simp [isHomeIndex] at hx2
      exact hx2.symm
    rw [nonHomeIndices_length_some n hh (hhome hh rfl)] at hu
    omega

/-- When the pool is unexhausted, `pickUnusedNonHomeLevelIndex` returns a
non-home index not yet in the history, whatever the random choice. -/
theorem pick_spec (n : Nat) (home : Option Nat) (carousel : List Nat) (c : Nat)
    (hd : carousel.Nodup)
    (hu : usedNonHomeCount home carousel < (nonHomeIndices n home).length) :
    pickUnusedNonHomeLevelIndex n home carousel c ∈ nonHomeIndices n home ∧
    pickUnusedNonHomeLevelIndex n home carousel c ∉ carousel := by
  have hne := pool_ne_nil n home carousel hd hu
  have hlen : ¬ (((nonHomeIndices n home).filter
      (fun i => !(carousel.contains i))).length = 0) :=
    fun h0 => hne (List.length_eq_zero.mp h0)
  have hpick : pickUnusedNonHomeLevelIndex n home carousel c ∈
      (nonHomeIndices n home).filter (fun i => !(carousel.contains i)) := by
    unfold pickUnusedNonHomeLevelIndex
    rw [dif_neg hlen]
    exact List.get_mem _ _ _
  rw [List.mem_filter] at hpick
  refine ⟨hpick.1, ?_⟩
  have h2 := hpick.2
  simp at h2
  exact h2

/-! ## Invariant claim C10 -/

/-- The carousel well-formedness invariant of claim C10: the history has no
duplicate level indices, never exceeds the pool size `n`, and the cursor is a
valid position into it. -/
def carouselInv (n : Nat) (s : CState) : Prop :=
  s.carousel.Nodup ∧ s.carousel.length ≤ n ∧ s.carouselPos < s.carousel.length

/-- Claim C10: initial seeding establishes, and both movement operations
preserve, the carousel invariant (no duplicates, history no longer than the
pool, cursor in range), for any random choices, given only that the detected
home index — if any — is an index of the pool. -/
theorem carousel_invariant_preserved (n c : Nat) (s : CState)
    (hhome : ∀ h, s.homeIndex = some h → h < n) :
    (0 < n → carouselInv n (initCarouselWithHomeOrFallback n c s)) ∧
    (carouselInv n s → carouselInv n (carouselMoveRight n c s).2) ∧
    (carouselInv n s → carouselInv n (carouselMoveLeft n c s).2) := by
  refine ⟨?_, ?_, ?_⟩
  · intro hn
    unfold initCarouselWithHomeOrFallback carouselInv
    cases s.homeIndex with
    | some h => exact ⟨List.nodup_singleton h, by simpa using hn, by simp⟩
    | none => exact ⟨List.nodup_singleton _, by simpa using hn, by simp⟩
  · rintro ⟨hd, hlen, hpos⟩
    by_cases hn : n ≤ 1
    · simpa [carouselMoveRight, hn, carouselInv] using ⟨hd, hlen, hpos⟩
    · by_cases hAll : (nonHomeIndices n s.homeIndex).length ≤
          usedNonHomeCount s.homeIndex s.carousel
      · have hlp : 0 < s.carousel.length := Nat.pos_of_ne_zero (by omega)
        simp only [carouselMoveRight, if_neg hn, if_pos hAll]
        exact ⟨hd, hlen, Nat.mod_lt _ hlp⟩
      · by_cases hstep : s.carouselPos + 1 < s.carousel.length
        · simp only [carouselMoveRight, if_neg hn, if_neg hAll, if_pos hstep]
          exact ⟨hd, hlen, hstep⟩
        · have hu : usedNonHomeCount s.homeIndex s.carousel <
              (nonHomeIndices n s.homeIndex).length := Nat.lt_of_not_le hAll
          have hp := pick_spec n s.homeIndex s.carousel c hd hu
          have hlt := carousel_length_lt_of_unused n s.homeIndex s.carousel hd
            hhome hu
          simp only [carouselMoveRight, if_neg hn, if_neg hAll, if_neg hstep]
          refine ⟨?_, ?_, ?_⟩
          · rw [List.nodup_append]
            refine ⟨hd, List.nodup_singleton _, ?_⟩
            intro x hx hx1
            rw [List.mem_singleton] at hx1
            subst hx1
            exact hp.2 hx
          · simp only [List.length_append, List.length_singleton]
            omega
          · simp
  · rintro ⟨hd, hlen, hpos⟩
    by_cases hn : n ≤ 1
    · simpa [carouselMoveLeft, hn, carouselInv] using ⟨hd, hlen, hpos⟩
    · by_cases hAll : (nonHomeIndices n s.homeIndex).length ≤
          usedNonHomeCount s.homeIndex s.carousel
      · have hlp : 0 < s.carousel.length := Nat.pos_of_ne_zero (by omega)
        simp only [carouselMoveLeft, if_neg hn, if_pos hAll]
        exact ⟨hd, hlen, Nat.mod_lt _ hlp⟩
      · by_cases hstep : 0 < s.carouselPos
        · simp only [carouselMoveLeft, if_neg hn, if_neg hAll, if_pos hstep]
          exact ⟨hd, hlen, show s.carouselPos - 1 < s.carousel.length by omega⟩
        · have hu : usedNonHomeCount s.homeIndex s.carousel <
              (nonHomeIndices n s.homeIndex).length := Nat.lt_of_not_le hAll
          have hp := pick_spec n s.homeIndex s.carousel c hd hu
          have hlt := carousel_length_lt_of_unused n s.homeIndex s.carousel hd
            hhome hu
          simp only [carouselMoveLeft, if_neg hn, if_neg hAll, if_neg hstep]
          refine ⟨?_, ?_, ?_⟩
          · rw [List.nodup_cons]
            exact ⟨hp.2, hd⟩
          · simp only [List.length_cons]
            omega
          · simp

/-- Witness for C10 at a concrete mid-session state. -/
theorem carousel_invariant_preserved_witness :
    (0 < 3 → carouselInv 3 (initCarouselWithHomeOrFallback 3 7 ⟨0, [0, 2], 1, some 0⟩)) ∧
    (carouselInv 3 ⟨0, [0, 2], 1, some 0⟩ →
      carouselInv 3 (carouselMoveRight 3 7 ⟨0, [0, 2], 1, some 0⟩).2) ∧
    (carouselInv 3 ⟨0, [0, 2], 1, some 0⟩ →
      carouselInv 3 (carouselMoveLeft 3 7 ⟨0, [0, 2], 1, some 0⟩).2) :=
  carousel_invariant_preserved 3 7 ⟨0, [0, 2], 1, some 0⟩
    (by intro h hh; injection hh with hh2; omega)

/-! ## Exhaustion claim C1 -/

/-- When the cursor is at the end of an unexhausted history,
`carouselMoveRight` appends the picked unused non-home index and moves the
cursor onto it. -/
theorem moveRight_append_spec (n cj : Nat) (s : CState) (hn2 : 2 ≤ n)
    (hpos : ¬ (s.carouselPos + 1 < s.carousel.length))
    (hu : usedNonHomeCount s.homeIndex s.carousel <
      (nonHomeIndices n s.homeIndex).length) :
    (carouselMoveRight n cj s).2 =
      { s with
        carousel := s.carousel ++
          [pickUnusedNonHomeLevelIndex n s.homeIndex s.carousel cj],
        carouselPos := s.carousel.length } ∧
    (carouselMoveRight n cj s).1 =
      pickUnusedNonHomeLevelIndex n s.homeIndex s.carousel cj := by
  have hn : ¬ (n ≤ 1) := by omega
  have hAll : ¬ ((nonHomeIndices n s.homeIndex).length ≤
      usedNonHomeCount s.homeIndex s.carousel) := Nat.not_le.mpr hu
  constructor
  · simp only [carouselMoveRight, if_neg hn, if_neg hAll, if_neg hpos]
  · simp only [carouselMoveRight, if_neg hn, if_neg hAll, if_neg hpos]

/-- State invariant along the first `N` rightward moves from the home-seeded
start of a pool with `N` non-home levels plus a home level `hh`: after `k`
moves the history holds `k + 1` distinct in-range indices including the home
index, the cursor sits at its end, and exactly `k` non-home indices are
used. -/
theorem rightIter_home_spec (N hh : Nat) (cs : Nat → Nat) (hhh : hh < N + 1) :
    ∀ k, k ≤ N →
      (rightIter (N + 1) cs k ⟨hh, [hh], 0, some hh⟩).homeIndex = some hh ∧
      (rightIter (N + 1) cs k ⟨hh, [hh], 0, some hh⟩).levelIndex = hh ∧
      (rightIter (N + 1) cs k ⟨hh, [hh], 0, some hh⟩).carouselPos = k ∧
      (rightIter (N + 1) cs k ⟨hh, [hh], 0, some hh⟩).carousel.length = k + 1 ∧
      (rightIter (N + 1) cs k ⟨hh, [hh], 0, some hh⟩).carousel.Nodup ∧
      (∀ x ∈ (rightIter (N + 1) cs k ⟨hh, [hh], 0, some hh⟩).carousel,
        x < N + 1) ∧
      hh ∈ (rightIter (N + 1) cs k ⟨hh, [hh], 0, some hh⟩).carousel ∧
      usedNonHomeCount (some hh)
        (rightIter (N + 1) cs k ⟨hh, [hh], 0, some hh⟩).carousel = k := by
  intro k
  induction k with
  | zero =>
    intro _
    refine ⟨rfl, rfl, rfl, rfl, List.nodup_singleton hh, ?_, ?_, ?_⟩
    · intro x hx
      have hx2 : x ∈ [hh] := hx
      rw [List.mem_singleton] at hx2
      omega
    · show hh ∈ [hh]
      simp
    · show usedNonHomeCount (some hh) [hh] = 0
      unfold usedNonHomeCount
      simp [isHomeIndex]
  | succ j ih =>
    intro hk
    obtain ⟨ihh, ihl, ihp, ihlen, ihd, ihb, ihm, ihu⟩ := ih (by omega)
    have hjN : j < N := by omega
    have hu : usedNonHomeCount
        (rightIter (N + 1) cs j ⟨hh, [hh], 0, some hh⟩).homeIndex
        (rightIter (N + 1) cs j ⟨hh, [hh], 0, some hh⟩).carousel <
        (nonHomeIndices (N + 1)
          (rightIter (N + 1) cs j ⟨hh, [hh], 0, some hh⟩).homeIndex).length := by
      rw [ihh, nonHomeIndices_length_some (N + 1) hh hhh, ihu]
      omega
    have hpos : ¬ ((rightIter (N + 1) cs j ⟨hh, [hh], 0, some hh⟩).carouselPos + 1 <
        (rightIter (N + 1) cs j ⟨hh, [hh], 0, some hh⟩).carousel.length) := by
      rw [ihp, ihlen]
      omega
    have hmv := moveRight_append_spec (N + 1) (cs j)
      (rightIter (N + 1) cs j ⟨hh, [hh], 0, some hh⟩) (by omega) hpos hu
    have hpk := pick_spec (N + 1)
      (rightIter (N + 1) cs j ⟨hh, [hh], 0, some hh⟩).homeIndex
      (rightIter (N + 1) cs j ⟨hh, [hh], 0, some hh⟩).carousel (cs j) ihd hu
    have hpk1 := (mem_nonHomeIndices _ _ _).mp hpk.1
    have hstep : rightIter (N + 1) cs (j + 1) ⟨hh, [hh], 0, some hh⟩ =
        (carouselMoveRight (N + 1) (cs j)
          (rightIter (N + 1) cs j ⟨hh, [hh], 0, some hh⟩)).2 := rfl
    rw [hstep, hmv.1]
    set e := pickUnusedNonHomeLevelIndex (N + 1)
      (rightIter (N + 1) cs j ⟨hh, [hh], 0, some hh⟩).homeIndex
      (rightIter (N + 1) cs j ⟨hh, [hh], 0, some hh⟩).carousel (cs j) with he
    have hnh2 : isHomeIndex (some hh) e = false := by
      have h5 := hpk1.2
      rw [ihh] at h5
      exact h5
    refine ⟨ihh, ihl, ihlen, ?_, ?_, ?_, ?_, ?_⟩
    · show ((rightIter (N + 1) cs j ⟨hh, [hh], 0, some hh⟩).carousel ++ _).length = j + 1 + 1
      rw [List.length_append, ihlen]
      simp
    · show ((rightIter (N + 1) cs j ⟨hh, [hh], 0, some hh⟩).carousel ++ _).Nodup
      rw [List.nodup_append]
      refine ⟨ihd, List.nodup_singleton _, ?_⟩
      intro x hx hx1
      rw [List.mem_singleton] at hx1
      subst hx1
      exact hpk.2 hx
    · intro x hx
      rw [List.mem_append] at hx
      rcases hx with hx | hx
      · exact ihb x hx
      · rw [List.mem_singleton] at hx
        subst hx
        exact hpk1.1
    · exact List.mem_append.mpr (Or.inl ihm)
    · show usedNonHomeCount (some hh)
        ((rightIter (N + 1) cs j ⟨hh, [hh], 0, some hh⟩).carousel ++ _) = j + 1
      unfold usedNonHomeCount
      rw [List.filter_append, List.length_append]
      have h1 : ((rightIter (N + 1) cs j ⟨hh, [hh], 0, some hh⟩).carousel.filter
          (fun i => !(isHomeIndex (some hh) i))).length = j := ihu
      rw [h1]
      simp [List.filter_cons, hnh2]

/-- Claim C1: from the home-seeded start of a pool with `N` non-home levels
plus one home level, after `N` rightward moves every non-home index has
appeared exactly once in the carousel history, whatever the random draws;
and the `(N+1)`-th rightward move leaves the history unchanged (no new index
is inserted) and rotates the cursor to an index already in the recorded
sequence. -/
theorem carousel_exhaustion (N hh : Nat) (cs : Nat → Nat) (hhh : hh < N + 1) :
    (∀ i, i < N + 1 → i ≠ hh →
      (rightIter (N + 1) cs N ⟨hh, [hh], 0, some hh⟩).carousel.count i = 1) ∧
    (carouselMoveRight (N + 1) (cs N)
        (rightIter (N + 1) cs N ⟨hh, [hh], 0, some hh⟩)).2.carousel =
      (rightIter (N + 1) cs N ⟨hh, [hh], 0, some hh⟩).carousel ∧
    (carouselMoveRight (N + 1) (cs N)
        (rightIter (N + 1) cs N ⟨hh, [hh], 0, some hh⟩)).1 ∈
      (rightIter (N + 1) cs N ⟨hh, [hh], 0, some hh⟩).carousel := by
  obtain ⟨hhome, hlev, hpos, hlen, hd, hbound, hmem, hused⟩ :=
    rightIter_home_spec N hh cs hhh N le_rfl
  have hmem_all : ∀ i, i < N + 1 → i ≠ hh →
      i ∈ (rightIter (N + 1) cs N ⟨hh, [hh], 0, some hh⟩).carousel := by
    intro i hi hne
    have hSnodup : ((rightIter (N + 1) cs N ⟨hh, [hh], 0, some hh⟩).carousel.filter
        (fun x => !(isHomeIndex (some hh) x))).Nodup := hd.filter _
    have hSlen : ((rightIter (N + 1) cs N ⟨hh, [hh], 0, some hh⟩).carousel.filter
        (fun x => !(isHomeIndex (some hh) x))).length = N := hused
    have hsub : ((rightIter (N + 1) cs N ⟨hh, [hh], 0, some hh⟩).carousel.filter
        (fun x => !(isHomeIndex (some hh) x))).toFinset ⊆
        (nonHomeIndices (N + 1) (some hh)).toFinset := by
      intro x hx
      rw [List.mem_toFinset] at hx ⊢
      rw [List.mem_filter] at hx
      rw [mem_nonHomeIndices]
      refine ⟨hbound x hx.1, ?_⟩
      simpa using hx.2
    have hcard : (nonHomeIndices (N + 1) (some hh)).toFinset.card ≤
        ((rightIter (N + 1) cs N ⟨hh, [hh], 0, some hh⟩).carousel.filter
          (fun x => !(isHomeIndex (some hh) x))).toFinset.card := by
      rw [List.toFinset_card_of_nodup hSnodup,
        List.toFinset_card_of_nodup (nonHomeIndices_nodup _ _), hSlen,
        nonHomeIndices_length_some (N + 1) hh hhh]
      omega
    have heq := Finset.eq_of_subset_of_card_le hsub hcard
    have hiN : i ∈ (nonHomeIndices (N + 1) (some hh)).toFinset := by
      rw [List.mem_toFinset, mem_nonHomeIndices]
      refine ⟨hi, ?_⟩
      simp [isHomeIndex]
      omega
    rw [← heq, List.mem_toFinset, List.mem_filter] at hiN
    exact hiN.1
  refine ⟨fun i hi hne => List.count_eq_one_of_mem hd (hmem_all i hi hne), ?_⟩
  rcases Nat.eq_zero_or_pos N with hN | hN
  · subst hN
    constructor
    · simp [carouselMoveRight]
    · have hX : (carouselMoveRight 1 (cs 0)
          (rightIter (0 + 1) cs 0 ⟨hh, [hh], 0, some hh⟩)).1 =
          (rightIter (0 + 1) cs 0 ⟨hh, [hh], 0, some hh⟩).levelIndex := by
        simp [carouselMoveRight]
      rw [hX, hlev]
      exact hmem
  · have hn1 : ¬ (N + 1 ≤ 1) := by omega
    have hAll : (nonHomeIndices (N + 1)
        (rightIter (N + 1) cs N ⟨hh, [hh], 0, some hh⟩).homeIndex).length ≤
        usedNonHomeCount
          (rightIter (N + 1) cs N ⟨hh, [hh], 0, some hh⟩).homeIndex
          (rightIter (N + 1) cs N ⟨hh, [hh], 0, some hh⟩).carousel := by
      rw [hhome, nonHomeIndices_length_some (N + 1) hh hhh, hused]
      omega
    constructor
    · simp only [carouselMoveRight, if_neg hn1, if_pos hAll]
    · have e1 : (carouselMoveRight (N + 1) (cs N)
          (rightIter (N + 1) cs N ⟨hh, [hh], 0, some hh⟩)).1 =
          (rightIter (N + 1) cs N ⟨hh, [hh], 0, some hh⟩).carousel.getD
            (((rightIter (N + 1) cs N ⟨hh, [hh], 0, some hh⟩).carouselPos + 1) %
              (rightIter (N + 1) cs N ⟨hh, [hh], 0, some hh⟩).carousel.length) 0 := by
        simp only [carouselMoveRight, if_neg hn1, if_pos hAll]
      rw [e1, hpos, hlen, Nat.mod_self]
      rcases hc : (rightIter (N + 1) cs N ⟨hh, [hh], 0, some hh⟩).carousel
        with _ | ⟨a, t⟩
      · rw [hc] at hlen
        simp at hlen
      · simp

/-- Witness for C1 with two non-home levels, home index 0 and a fixed
draw sequence. -/
theorem carousel_exhaustion_witness :
    (∀ i, i < 2 + 1 → i ≠ 0 →
      (rightIter (2 + 1) (fun _ => 0) 2 ⟨0, [0], 0, some 0⟩).carousel.count i = 1) ∧
    (carouselMoveRight (2 + 1) ((fun _ => (0:Nat)) 2)
        (rightIter (2 + 1) (fun _ => 0) 2 ⟨0, [0], 0, some 0⟩)).2.carousel =
      (rightIter (2 + 1) (fun _ => 0) 2 ⟨0, [0], 0, some 0⟩).carousel ∧
    (carouselMoveRight (2 + 1) ((fun _ => (0:Nat)) 2)
        (rightIter (2 + 1) (fun _ => 0) 2 ⟨0, [0], 0, some 0⟩)).1 ∈
      (rightIter (2 + 1) (fun _ => 0) 2 ⟨0, [0], 0, some 0⟩).carousel :=
  carousel_exhaustion 2 0 (fun _ => 0) (by omega)
